import Mathlib

/-!
Shallow embedding of the article-chatbot core (`chatbot.py`): the segmenter
`chunk_text`, the relevance selector `get_relevant_context`, the session step
`chat_with_article`, and the rule-based fallback responder with its handlers.
Machine-level Python behaviours (slicing, `range`, `str.split`, `str.lower`,
`str.strip`, `str.replace`, substring `in`, dict lookup, truthiness,
`datetime.strptime`/`strftime` for the fixed `%Y-%m-%d` / `%B %d, %Y` formats)
are modelled by executable Lean functions over `String`/`List Char`.
-/

namespace Chatbot

/-- Python value that can sit in the article-data mapping: a string or `None`.
`none` models Python's `None`. -/
inductive PyVal where
  | str (s : String)
  | none
deriving DecidableEq, Repr

/-- Rendering of a `PyVal` inside an f-string (`f"...{v}..."`):
a string renders as itself, `None` renders as `"None"`. -/
def pyStr : PyVal → String
  | .str s => s
  | .none => "None"

/-- Python truthiness of a `PyVal`: `None` and the empty string are falsy. -/
def pyTruthy : PyVal → Bool
  | .str s => s != ""
  | .none => false

/-- The article-data mapping (`dict(row.items())` in the source), modelled as an
association list with first-match lookup. -/
abbrev ArticleData := List (String × PyVal)

/-- Python `k in d` / `d[k]` combined: first binding of key `k`, if any. -/
def pyLookup (d : ArticleData) (k : String) : Option PyVal :=
  match d with
  | [] => Option.none
  | (k', v) :: rest => if k' = k then some v else pyLookup rest k

/-- Python `d.get(k, default)`. -/
def pyGet (d : ArticleData) (k : String) (default : PyVal) : PyVal :=
  (pyLookup d k).getD default

/-- Python slice `s[i:j]` for `0 ≤ i ≤ j` (the only case reached in this
program: slice bounds here always come from a `range` with positive step). -/
def pySlice (s : String) (i j : Int) : String :=
  ⟨(s.data.take j.toNat).drop i.toNat⟩

/-- Length of Python `range(start, stop, step)` for `step ≠ 0`, exactly as
CPython computes it (`get_len_of_range`). -/
def pyRangeLen (start stop step : Int) : Nat :=
  if 0 < step then
    (if start < stop then ((stop - start - 1) / step + 1).toNat else 0)
  else if step < 0 then
    (if stop < start then ((start - stop - 1) / (-step) + 1).toNat else 0)
  else 0

/-- Python `range(start, stop, step)` as a list; `none` models the
`ValueError: range() arg 3 must not be zero` raised when `step = 0`. -/
def pyRange (start stop step : Int) : Option (List Int) :=
  if step = 0 then Option.none
  else some ((List.range (pyRangeLen start stop step)).map
    (fun k : Nat => start + step * (k : Int)))

/-- Lower-casing a string, Python `str.lower` (ASCII model). -/
def lowerStr (s : String) : String :=
  ⟨s.data.map Char.toLower⟩

/-- Auxiliary for `pySplitWS`: accumulates the current word (reversed). -/
def splitWSAux : List Char → List Char → List (List Char)
  | [], acc => if acc = [] then [] else [acc.reverse]
  | c :: cs, acc =>
    if c.isWhitespace then
      (if acc = [] then splitWSAux cs [] else acc.reverse :: splitWSAux cs [])
    else splitWSAux cs (c :: acc)

/-- Python `str.split()` with no argument: splits on whitespace runs and
drops empty fields. -/
def pySplitWS (s : String) : List String :=
  (splitWSAux s.data []).map (fun w => (⟨w⟩ : String))

/-- Drops leading whitespace characters. -/
def dropLeadingWS : List Char → List Char
  | [] => []
  | c :: cs => if c.isWhitespace then dropLeadingWS cs else c :: cs

/-- Python `str.strip()`: removes leading and trailing whitespace. -/
def pyStrip (s : String) : String :=
  ⟨((dropLeadingWS s.data).reverse |> dropLeadingWS).reverse⟩

/-- Boolean prefix test on character lists. -/
def isPrefOf : List Char → List Char → Bool
  | [], _ => true
  | _ :: _, [] => false
  | a :: as, b :: bs => a == b && isPrefOf as bs

/-- Occurrence of `pat` as a contiguous substring of the second list. -/
def containsSub (pat : List Char) : List Char → Bool
  | [] => isPrefOf pat []
  | c :: rest => isPrefOf pat (c :: rest) || containsSub pat rest

/-- Python `t in s` on strings: `t` occurs as a contiguous substring of `s`. -/
def strIn (t s : String) : Bool :=
  containsSub t.data s.data

/-- Python `s.replace(pat, rep)` on character lists: non-overlapping,
leftmost-first replacement (used here with the nonempty pattern `&quot;`).
The `fuel` argument only makes the recursion structural; it is initialized to
the list length, which the remaining input never exceeds, so the `0` case is
never reached on a nonempty list. -/
def replaceListAux (pat rep : List Char) : Nat → List Char → List Char
  | _, [] => []
  | 0, cs => cs
  | Nat.succ fuel, c :: cs =>
    if isPrefOf pat (c :: cs) then rep ++ replaceListAux pat rep fuel (cs.drop (pat.length - 1))
    else c :: replaceListAux pat rep fuel cs

/-- Python `s.replace(pat, rep)` on strings. -/
def replaceStr (s pat rep : String) : String :=
  ⟨replaceListAux pat.data rep.data s.data.length s.data⟩

/-- Python `sep.join(l)`. -/
def pyJoin (sep : String) : List String → String
  | [] => ""
  | [s] => s
  | s :: t :: rest => s ++ sep ++ pyJoin sep (t :: rest)

/-- Concatenation of a list of strings in order (the observable checked by the
segmenter round-trip property). -/
def concatAll : List String → String
  | [] => ""
  | s :: rest => s ++ concatAll rest

/-- Python `l[-n:]`: the last `n` elements (all of them when fewer). -/
def pyLastN (n : Nat) (l : List α) : List α :=
  l.drop (l.length - n)

/-- Python truncation idiom `s[:100] + '...' if len(s) > 100 else s` shared by
the what/summary/general fallback handlers. -/
def pyTruncate (s : String) : String :=
  if 100 < s.length then pySlice s 0 100 ++ "..." else s

/-- Source `chunk_text(text, chunk_size=100)`:
`[text[i:i + chunk_size] for i in range(0, len(text), chunk_size)]`.
`none` models the `ValueError` raised by `range` when `chunk_size = 0`. -/
def chunk_text (text : String) (chunk_size : Int := 100) : Option (List String) :=
  (pyRange 0 (text.length : Int) chunk_size).map
    (fun idxs => idxs.map (fun i => pySlice text i (i + chunk_size)))

/-- The term set built by `get_relevant_context`: lower-cased whitespace-split
tokens of the query, extended with the tokens of the message text of the last
three conversation-history entries. -/
def queryTerms (query : String) (conversation_history : List (String × String)) : List String :=
  pySplitWS (lowerStr query)
    ++ ((pyLastN 3 conversation_history).map (fun t => pySplitWS (lowerStr t.2))).flatten

/-- Match condition of the selection loop: some term occurs as a substring of
the chunk's lower-cased text (`any(term in chunk_lower for term in query_terms)`). -/
def chunkMatches (terms : List String) (chunk : String) : Bool :=
  terms.any (fun term => strIn term (lowerStr chunk))

/-- Clean-up applied to a selected chunk: `chunk.replace('&quot;', '"').strip()`. -/
def cleanChunk (chunk : String) : String :=
  pyStrip (replaceStr chunk "&quot;" "\"")

/-- The selection loop of `get_relevant_context`, with the accumulated
`relevant_chunks` made explicit; the loop breaks as soon as
`len(relevant_chunks) >= top_k` after an append. -/
def scanChunks (terms : List String) (top_k : Int) : List String → List String → List String
  | [], acc => acc
  | ch :: rest, acc =>
    if chunkMatches terms ch then
      (if top_k ≤ ((acc ++ [cleanChunk ch]).length : Int) then acc ++ [cleanChunk ch]
       else scanChunks terms top_k rest (acc ++ [cleanChunk ch]))
    else scanChunks terms top_k rest acc

/-- Source `get_relevant_context(query, top_k=3)`, with the object state
(`conversation_history`, `chunks`) passed explicitly. -/
def get_relevant_context (query : String) (conversation_history : List (String × String))
    (chunks : List String) (top_k : Int := 3) : String :=
  let terms := queryTerms query conversation_history
  let relevant_chunks := scanChunks terms top_k chunks []
  if relevant_chunks = [] then "No specific information found in the article."
  else pyJoin " " relevant_chunks

/-- The mutable/derived state of one `ArticleChatbot` instance that the
fallback and chat paths read: the article-data mapping, the chunk sequence,
and the conversation ledger of (role, message) turns. -/
structure ChatbotState where
  article_data : ArticleData
  chunks : List String
  conversation_history : List (String × String)
deriving Repr

/-- A parsed `%Y-%m-%d` date. -/
structure PyDate where
  year : Nat
  month : Nat
  day : Nat
deriving DecidableEq, Repr

/-- Gregorian leap-year rule used by `datetime`. -/
def isLeapYear (y : Nat) : Bool :=
  y % 4 = 0 && (y % 100 ≠ 0 || y % 400 = 0)

/-- Days in a month, as validated by `datetime`. -/
def daysInMonth (y m : Nat) : Nat :=
  if m = 2 then (if isLeapYear y then 29 else 28)
  else if m = 4 ∨ m = 6 ∨ m = 9 ∨ m = 11 then 30
  else 31

/-- Splits a character list at every `'-'` (keeping empty fields). -/
def splitDash : List Char → List (List Char)
  | [] => [[]]
  | c :: cs =>
    if c = '-' then [] :: splitDash cs
    else match splitDash cs with
      | [] => [[c]]
      | g :: gs => (c :: g) :: gs

/-- Numeric value of an all-digit field, `none` otherwise. -/
def parseNatDigits (cs : List Char) : Option Nat :=
  if cs ≠ [] ∧ cs.all Char.isDigit then
    some (cs.foldl (fun n c => n * 10 + (c.toNat - 48)) 0)
  else Option.none

/-- Models CPython `datetime.strptime(s, '%Y-%m-%d')` for this fixed format:
three dash-separated digit fields, the year exactly 4 digits (CPython's
`TimeRE` pattern for `%Y` is four `\d`) and month/day 1–2 digits, with
`datetime`'s range validation (year ≥ 1, month 1–12, day within the month);
`none` models the raised `ValueError`. -/
def strptimeYmd (s : String) : Option PyDate :=
  match splitDash s.data with
  | [ys, ms, ds] =>
    (match parseNatDigits ys, parseNatDigits ms, parseNatDigits ds with
     | some y, some m, some d =>
       if ys.length = 4 ∧ ms.length ≤ 2 ∧ ds.length ≤ 2
          ∧ 1 ≤ y ∧ 1 ≤ m ∧ m ≤ 12 ∧ 1 ≤ d ∧ d ≤ daysInMonth y m
       then some ⟨y, m, d⟩ else Option.none
     | _, _, _ => Option.none)
  | _ => Option.none

/-- English month name, as produced by `%B`. -/
def monthName : Nat → String
  | 1 => "January" | 2 => "February" | 3 => "March" | 4 => "April"
  | 5 => "May" | 6 => "June" | 7 => "July" | 8 => "August"
  | 9 => "September" | 10 => "October" | 11 => "November" | 12 => "December"
  | _ => ""

/-- Zero-padded two-digit field, as produced by `%d`. -/
def pad2 (n : Nat) : String :=
  if n < 10 then "0" ++ toString n else toString n

/-- Models `date_obj.strftime('%B %d, %Y')`. -/
def strftimeBdY (d : PyDate) : String :=
  monthName d.month ++ " " ++ pad2 d.day ++ ", " ++ toString d.year

/-- Source `_handle_when_question`: reads `publication_date` with default `''`,
formats a truthy value, and maps the two failure modes to their fixed strings
(the `except` branch catches the `strptime` failure; an absent or empty date
takes the `else` branch). -/
def handle_when_question (article_data : ArticleData) : String :=
  let date := pyGet article_data "publication_date" (PyVal.str "")
  if pyTruthy date then
    match date with
    | PyVal.str s =>
      (match strptimeYmd s with
       | some d => "Published on " ++ strftimeBdY d
       | Option.none => "Error retrieving publication date")
    | PyVal.none => "Error retrieving publication date"
  else "Publication date not available"

/-- Source `_handle_what_question`. -/
def handle_what_question (st : ChatbotState) (question : String) : String :=
  let context := get_relevant_context question st.conversation_history st.chunks 3
  pyTruncate context

/-- Source `_handle_who_question`: keyed on the presence of `'author'`. -/
def handle_who_question (article_data : ArticleData) : String :=
  match pyLookup article_data "author" with
  | some v => "Author: " ++ pyStr v
  | Option.none => "Author: N/A"

/-- Source `_handle_summary_question`; `none` models the uncaught `TypeError`
from `len(None)` when the stored teaser value is Python `None`. -/
def handle_summary_question (article_data : ArticleData) : Option String :=
  match pyGet article_data "teaser_text" (PyVal.str "No summary available.") with
  | PyVal.str s => some (pyTruncate s)
  | PyVal.none => Option.none

/-- Source `_handle_general_question`. -/
def handle_general_question (st : ChatbotState) (question : String) : String :=
  pyTruncate (get_relevant_context question st.conversation_history st.chunks 3)

/-- Source `_handle_basic_response`: ordered lexical dispatch on the
lower-cased question; `none` models an uncaught exception inside a handler. -/
def handle_basic_response (st : ChatbotState) (user_input : String) : Option String :=
  let user_input_lower := lowerStr user_input
  if ["what", "tell me about"].any (fun word => strIn word user_input_lower) then
    some (handle_what_question st user_input)
  else if ["when", "date", "time"].any (fun word => strIn word user_input_lower) then
    some (handle_when_question st.article_data)
  else if ["who", "author"].any (fun word => strIn word user_input_lower) then
    some (handle_who_question st.article_data)
  else if ["summary", "overview", "about"].any (fun word => strIn word user_input_lower) then
    handle_summary_question st.article_data
  else
    some (handle_general_question st user_input)

/-- The prompt assembled by `chat_with_article` before invoking the primary
mechanism. -/
def buildPrompt (st : ChatbotState) (user_input : String) : String :=
  let context := get_relevant_context user_input st.conversation_history st.chunks 3
  let conversation_context :=
    pyJoin "\n" ((pyLastN 3 st.conversation_history).map (fun t => t.1 ++ ": " ++ t.2))
  "You are a helpful AI assistant. You have access to both the article content and our conversation history.\n\nPrevious conversation:\n"
    ++ conversation_context
    ++ "\n\nArticle content: " ++ context
    ++ "\n\nQuestion: " ++ user_input
    ++ "\n\nPlease provide a brief, direct answer that:\n1. Answers the question in 1-2 sentences\n2. Uses any available information (article, conversation history, or general knowledge)\n3. Keeps the tone casual and natural\n4. Focuses on the most important information\n5. Don't mention where the information comes from\n\nYour response:"

/-- Source `chat_with_article`: the primary answering mechanism is the external
collaborator `submit(prompt) -> string`, modelled as a fallible function; on
success the user and assistant turns are appended to the ledger, on failure the
fallback responder's result is returned with the state untouched. -/
def chat_with_article (st : ChatbotState) (primary : String → Option String)
    (user_input : String) : Option String × ChatbotState :=
  let prompt := buildPrompt st user_input
  match primary prompt with
  | some text =>
    (some text,
      { st with conversation_history :=
          st.conversation_history ++ [("user", user_input), ("assistant", text)] })
  | Option.none => (handle_basic_response st user_input, st)

/-- Ceiling division `⌈n / c⌉` in the form CPython's range length takes for
`start = 0` and positive step. -/
def natCeil (n c : Nat) : Nat :=
  if 0 < n then (n - 1) / c + 1 else 0

/-- Recursive characterization of the segmenter on character lists, for chunk
size `m + 1`: first `m + 1` characters, then the rest. -/
def chunksL (m : Nat) : List Char → List (List Char)
  | [] => []
  | c :: rest => ((c :: rest).take (m + 1)) :: chunksL m ((c :: rest).drop (m + 1))
termination_by cs => cs.length
decreasing_by
  simp only [List.drop_succ_cons, List.length_drop, List.length_cons]
  omega

/-- A 110-character teaser used to exercise the truncating path. -/
def sampleTeaser : String :=
  "aaaaaaaaaaaaaaaaaaaaaaaaaaaaaaaaaaaaaaaaaaaaaaaaaaaaaaaaaaaaaaaaaaaaaaaaaaaaaaaaaaaaaaaaaaaaaaaaaaaaaaaaaaaa"

/-! ### Shared lemmas -/

theorem strData_append (a b : String) : (a ++ b).data = a.data ++ b.data := rfl

theorem scanChunks_no_match (terms : List String) (top_k : Int) :
    ∀ (cs acc : List String), (∀ ch ∈ cs, chunkMatches terms ch = false) →
      scanChunks terms top_k cs acc = acc := by
  intro cs
  induction cs with
  | nil => intro acc _; rfl
  | cons c rest ih =>
    intro acc hall
    unfold scanChunks
    rw [if_neg (by simp [hall c (by simp)])]
    exact ih acc (fun x hx => hall x (by simp [hx]))

theorem chunksL_nil (m : Nat) : chunksL m [] = [] := by
  rw [chunksL]

theorem chunksL_cons (m : Nat) (c : Char) (rest : List Char) :
    chunksL m (c :: rest)
      = ((c :: rest).take (m + 1)) :: chunksL m ((c :: rest).drop (m + 1)) := by
  rw [chunksL]

theorem chunksL_eq_nil_iff (m : Nat) (cs : List Char) : chunksL m cs = [] ↔ cs = [] := by
  cases cs with
  | nil => simp [chunksL_nil]
  | cons c rest => rw [chunksL_cons]; simp

theorem chunksL_flatten_aux (m : Nat) : ∀ (n : Nat) (cs : List Char), cs.length ≤ n →
    (chunksL m cs).flatten = cs := by
  intro n
  induction n with
  | zero =>
    intro cs h
    cases cs with
    | nil => simp [chunksL_nil]
    | cons c rest => simp at h
  | succ n ih =>
    intro cs h
    cases cs with
    | nil => simp [chunksL_nil]
    | cons c rest =>
      rw [chunksL_cons, List.flatten_cons,
        ih ((c :: rest).drop (m + 1)) (by simp only [List.length_cons] at h; simp only [List.length_drop, List.length_cons]; omega)]
      exact List.take_append_drop _ _

theorem chunksL_flatten (m : Nat) (cs : List Char) : (chunksL m cs).flatten = cs :=
  chunksL_flatten_aux m cs.length cs le_rfl

theorem chunksL_mem_len_aux (m : Nat) : ∀ (n : Nat) (cs : List Char), cs.length ≤ n →
    ∀ l ∈ chunksL m cs, 0 < l.length ∧ l.length ≤ m + 1 := by
  intro n
  induction n with
  | zero =>
    intro cs h
    cases cs with
    | nil => simp [chunksL_nil]
    | cons c rest => simp at h
  | succ n ih =>
    intro cs h
    cases cs with
    | nil => simp [chunksL_nil]
    | cons c rest =>
      rw [chunksL_cons]
      intro l hl
      rcases List.mem_cons.1 hl with hl | hl
      · subst hl
        simp only [List.length_take, List.length_cons]
        omega
      · exact ih ((c :: rest).drop (m + 1))
          (by simp only [List.length_cons] at h; simp only [List.length_drop, List.length_cons]; omega) l hl

theorem chunksL_mem_len (m : Nat) (cs : List Char) :
    ∀ l ∈ chunksL m cs, 0 < l.length ∧ l.length ≤ m + 1 :=
  chunksL_mem_len_aux m cs.length cs le_rfl

theorem chunksL_dropLast_aux (m : Nat) : ∀ (n : Nat) (cs : List Char), cs.length ≤ n →
    ∀ l ∈ (chunksL m cs).dropLast, l.length = m + 1 := by
  intro n
  induction n with
  | zero =>
    intro cs h
    cases cs with
    | nil => simp [chunksL_nil]
    | cons c rest => simp at h
  | succ n ih =>
    intro cs h
    cases cs with
    | nil => simp [chunksL_nil]
    | cons c rest =>
      rw [chunksL_cons]
      rcases hR : chunksL m ((c :: rest).drop (m + 1)) with _ | ⟨r, rs⟩
      · simp
      · intro l hl
        rw [List.dropLast_cons₂] at hl
        rcases List.mem_cons.1 hl with hl | hl
        · subst hl
          have hne : (c :: rest).drop (m + 1) ≠ [] := by
            intro hnil
            rw [(chunksL_eq_nil_iff m _).2 hnil] at hR
            exact List.noConfusion hR
          have hlen : m + 1 < (c :: rest).length := by
            by_contra hcon
            exact hne (List.drop_eq_nil_of_le (by omega))
          simp only [List.length_take]
          omega
        · have := ih ((c :: rest).drop (m + 1))
            (by simp only [List.length_cons] at h; simp only [List.length_drop, List.length_cons]; omega) l
          rw [hR] at this
          exact this (by simpa using hl)

theorem chunksL_dropLast (m : Nat) (cs : List Char) :
    ∀ l ∈ (chunksL m cs).dropLast, l.length = m + 1 :=
  chunksL_dropLast_aux m cs.length cs le_rfl

theorem natCeil_zero (c : Nat) : natCeil 0 c = 0 := by
  simp [natCeil]

theorem natCeil_succ (c n : Nat) (hc : 0 < c) (hn : 0 < n) :
    natCeil n c = natCeil (n - c) c + 1 := by
  unfold natCeil
  rcases le_or_lt n c with h | h
  · rw [if_pos hn, if_neg (by omega), Nat.div_eq_of_lt (by omega)]
  · rw [if_pos hn, if_pos (by omega)]
    have h1 : n - 1 = (n - c - 1) + c := by omega
    rw [h1, Nat.add_div_right _ hc]

theorem pyRangeLen_zero_up (n c : Nat) (hc : 0 < c) :
    pyRangeLen 0 (n : Int) (c : Int) = natCeil n c := by
  unfold pyRangeLen natCeil
  have hc' : (0 : Int) < (c : Int) := by exact_mod_cast hc
  rw [if_pos hc']
  by_cases hn : 0 < n
  · have hn' : (0 : Int) < (n : Int) := by exact_mod_cast hn
    rw [if_pos hn', if_pos hn]
    have h1 : (n : Int) - 0 - 1 = ((n - 1 : Nat) : Int) := by omega
    have h2 : ((n - 1 : Nat) : Int) / ((c : Nat) : Int) = (((n - 1) / c : Nat) : Int) :=
      (Int.ofNat_ediv (n - 1) c).symm
    rw [h1, h2]
    generalize (n - 1) / c = q
    omega
  · have hn' : ¬ ((0 : Int) < (n : Int)) := by exact_mod_cast hn
    rw [if_neg hn', if_neg hn]

theorem range_chunksL (m : Nat) : ∀ (n : Nat) (cs : List Char), cs.length ≤ n →
    (List.range (natCeil cs.length (m + 1))).map
        (fun k => (cs.drop ((m + 1) * k)).take (m + 1))
      = chunksL m cs := by
  intro n
  induction n with
  | zero =>
    intro cs h
    cases cs with
    | nil => simp [natCeil_zero, chunksL_nil]
    | cons c rest => simp at h
  | succ n ih =>
    intro cs h
    cases cs with
    | nil => simp [natCeil_zero, chunksL_nil]
    | cons c rest =>
      rw [chunksL_cons,
        natCeil_succ (m + 1) (c :: rest).length (by omega) (by simp),
        List.range_succ_eq_map, List.map_cons, List.map_map,
        ← ih ((c :: rest).drop (m + 1))
          (by simp only [List.length_cons] at h
              simp only [List.length_drop, List.length_cons]
              omega),
        List.length_drop]
      refine congrArg₂ (fun x y => x :: y) (by simp) (List.map_congr_left ?_)
      intro k _
      show ((c :: rest).drop ((m + 1) * (k + 1))).take (m + 1)
        = (((c :: rest).drop (m + 1)).drop ((m + 1) * k)).take (m + 1)
      rw [List.drop_drop]
      have harg : (m + 1) * (k + 1) = (m + 1) + (m + 1) * k := by ring
      rw [harg]

theorem chunk_text_pos_eq (m : Nat) (s : String) :
    chunk_text s ((m + 1 : Nat) : Int)
      = some ((chunksL m s.data).map (fun l => (⟨l⟩ : String))) := by
  unfold chunk_text pyRange
  rw [if_neg (by omega : ¬ (((m + 1 : Nat) : Int) = 0))]
  rw [Option.map_some']
  refine congrArg some ?_
  have hlen : s.length = s.data.length := rfl
  rw [hlen, pyRangeLen_zero_up s.data.length (m + 1) (by omega), List.map_map,
    ← range_chunksL m s.data.length s.data le_rfl, List.map_map]
  apply List.map_congr_left
  intro k _
  show pySlice s (0 + ((m + 1 : Nat) : Int) * (k : Int))
        (0 + ((m + 1 : Nat) : Int) * (k : Int) + ((m + 1 : Nat) : Int))
      = (⟨((s.data.drop ((m + 1) * k)).take (m + 1))⟩ : String)
  unfold pySlice
  have hi : (0 : Int) + ((m + 1 : Nat) : Int) * (k : Int) = (((m + 1) * k : Nat) : Int) := by
    push_cast
    ring
  have hj : (((m + 1) * k : Nat) : Int) + ((m + 1 : Nat) : Int)
      = ((((m + 1) * k + (m + 1)) : Nat) : Int) := by
    push_cast
    ring
  rw [hi, hj, Int.toNat_ofNat, Int.toNat_ofNat, List.drop_take, Nat.add_sub_cancel_left]

theorem concatAll_map_mk (L : List (List Char)) :
    concatAll (L.map (fun l => (⟨l⟩ : String))) = ⟨L.flatten⟩ := by
  induction L with
  | nil => rfl
  | cons a rest ih =>
    show (⟨a⟩ : String) ++ concatAll (rest.map (fun l => (⟨l⟩ : String)))
        = ⟨(a :: rest).flatten⟩
    rw [ih]
    rfl

theorem dropLast_map {α β : Type} (f : α → β) : ∀ (L : List α),
    (L.map f).dropLast = L.dropLast.map f := by
  intro L
  induction L with
  | nil => rfl
  | cons a rest ih =>
    cases rest with
    | nil => rfl
    | cons b rs =>
      simp only [List.map_cons, List.dropLast_cons₂]
      rw [← List.map_cons f b rs, ih]

theorem pyTruncate_spec (s : String) :
    (100 < s.length → (pyTruncate s).data = s.data.take 100 ++ ('.' :: '.' :: '.' :: []))
    ∧ (s.length ≤ 100 → pyTruncate s = s) := by
  constructor
  · intro h
    unfold pyTruncate pySlice
    rw [if_pos h, strData_append]
    rfl
  · intro h
    unfold pyTruncate
    rw [if_neg (by omega)]

theorem scanChunks_eq_take_filter (terms : List String) (top_k : Int) :
    ∀ (cs acc : List String), ((acc.length : Int) < top_k) →
      scanChunks terms top_k cs acc
        = acc ++ ((cs.filter (chunkMatches terms)).map cleanChunk).take (top_k.toNat - acc.length) := by
  intro cs
  induction cs with
  | nil => intro acc _; simp [scanChunks]
  | cons c rest ih =>
    intro acc hlt
    unfold scanChunks
    by_cases hm : chunkMatches terms c
    · rw [if_pos hm]
      by_cases hstop : top_k ≤ (((acc ++ [cleanChunk c]).length : Nat) : Int)
      · rw [if_pos hstop]
        have hone : top_k.toNat - acc.length = 1 := by
          simp only [List.length_append, List.length_cons, List.length_nil] at hstop
          omega
        simp [List.filter_cons, hm, hone]
      · rw [if_neg hstop]
        have hlt' : (((acc ++ [cleanChunk c]).length : Nat) : Int) < top_k := by omega
        rw [ih _ hlt']
        have hsucc : top_k.toNat - acc.length
            = (top_k.toNat - (acc ++ [cleanChunk c]).length) + 1 := by
          simp only [List.length_append, List.length_cons, List.length_nil] at hstop ⊢
          omega
        simp only [List.filter_cons, hm, ite_true, List.map_cons, hsucc, List.take_succ_cons,
          List.append_assoc, List.cons_append, List.nil_append]
    · rw [if_neg hm]
      rw [ih _ hlt]
      simp [List.filter_cons, hm]

/-! ### Claim theorems -/

/-- C7: on each truncating fallback path (what-question, summary-question,
general-question), a source string longer than 100 characters is returned as
exactly its first 100 characters followed by `...`, and a source string of at
most 100 characters is returned unchanged. -/
theorem C7_truncation :
    (∀ (st : ChatbotState) (q : String),
        (100 < (get_relevant_context q st.conversation_history st.chunks 3).length →
          (handle_what_question st q).data
            = (get_relevant_context q st.conversation_history st.chunks 3).data.take 100
                ++ ('.' :: '.' :: '.' :: []))
        ∧ ((get_relevant_context q st.conversation_history st.chunks 3).length ≤ 100 →
          handle_what_question st q = get_relevant_context q st.conversation_history st.chunks 3))
    ∧ (∀ (st : ChatbotState) (q : String),
        (100 < (get_relevant_context q st.conversation_history st.chunks 3).length →
          (handle_general_question st q).data
            = (get_relevant_context q st.conversation_history st.chunks 3).data.take 100
                ++ ('.' :: '.' :: '.' :: []))
        ∧ ((get_relevant_context q st.conversation_history st.chunks 3).length ≤ 100 →
          handle_general_question st q
            = get_relevant_context q st.conversation_history st.chunks 3))
    ∧ (∀ (ad : ArticleData) (s : String),
        pyGet ad "teaser_text" (PyVal.str "No summary available.") = PyVal.str s →
        (100 < s.length →
          handle_summary_question ad = some (pyTruncate s)
          ∧ (pyTruncate s).data = s.data.take 100 ++ ('.' :: '.' :: '.' :: []))
        ∧ (s.length ≤ 100 → handle_summary_question ad = some s)) := by
  refine ⟨?_, ?_, ?_⟩
  · intro st q
    exact ⟨fun h => (pyTruncate_spec _).1 h, fun h => (pyTruncate_spec _).2 h⟩
  · intro st q
    exact ⟨fun h => (pyTruncate_spec _).1 h, fun h => (pyTruncate_spec _).2 h⟩
  · intro ad s hget
    constructor
    · intro h
      refine ⟨?_, (pyTruncate_spec s).1 h⟩
      unfold handle_summary_question
      rw [hget]
    · intro h
      unfold handle_summary_question
      rw [hget]
      show some (pyTruncate s) = some s
      rw [(pyTruncate_spec s).2 h]

theorem C7_truncation_witness :
    ((get_relevant_context "hi" [] [] 3).length ≤ 100
      ∧ handle_what_question ⟨[], [], []⟩ "hi" = get_relevant_context "hi" [] [] 3)
    ∧ (100 < sampleTeaser.length
      ∧ handle_summary_question [("teaser_text", PyVal.str sampleTeaser)]
          = some (pyTruncate sampleTeaser)
      ∧ (pyTruncate sampleTeaser).data
          = sampleTeaser.data.take 100 ++ ('.' :: '.' :: '.' :: [])) :=
  ⟨⟨by decide, (C7_truncation.1 ⟨[], [], []⟩ "hi").2 (by decide)⟩,
   ⟨by decide,
    ((C7_truncation.2.2 [("teaser_text", PyVal.str sampleTeaser)] sampleTeaser rfl).1
      (by decide)).1,
    ((C7_truncation.2.2 [("teaser_text", PyVal.str sampleTeaser)] sampleTeaser rfl).1
      (by decide)).2⟩⟩

/-- C5: the relevance selection loop scans the fragments in document order,
selects a fragment iff some term occurs as a substring of its lower-cased
text, and stops once `topK` fragments are selected: for `topK ≥ 1` the
selected list is exactly the first `topK` matching fragments (cleaned), in
order; at most `topK` fragments contribute; and when the lowest-index matching
fragment is `ch`, the first selected component originates from `ch`. -/
theorem C5_first_match_policy (terms : List String) (chunks : List String) (top_k : Int)
    (h : 1 ≤ top_k) :
    scanChunks terms top_k chunks []
        = ((chunks.filter (chunkMatches terms)).map cleanChunk).take top_k.toNat
    ∧ (scanChunks terms top_k chunks []).length ≤ top_k.toNat
    ∧ (∀ pre ch post, chunks = pre ++ ch :: post →
        (∀ x ∈ pre, chunkMatches terms x = false) →
        chunkMatches terms ch = true →
        (scanChunks terms top_k chunks []).head? = some (cleanChunk ch)) := by
  have hbase : ((([] : List String).length : Nat) : Int) < top_k := by
    simp only [List.length_nil, Nat.cast_zero]
    omega
  have hmain := scanChunks_eq_take_filter terms top_k chunks [] hbase
  simp only [List.nil_append, List.length_nil, Nat.sub_zero] at hmain
  refine ⟨hmain, ?_, ?_⟩
  · rw [hmain]
    simp [List.length_take]
  · intro pre ch post hsplit hpre hch
    rw [hmain, hsplit]
    have hfilpre : pre.filter (chunkMatches terms) = [] :=
      List.filter_eq_nil_iff.2 (by intro a ha; simp [hpre a ha])
    have htk : ∃ k, top_k.toNat = k + 1 := ⟨top_k.toNat - 1, by omega⟩
    obtain ⟨k, hk⟩ := htk
    rw [List.filter_append, hfilpre, List.nil_append, List.filter_cons, if_pos hch,
      List.map_cons, hk, List.take_succ_cons, List.head?_cons]

theorem C5_first_match_policy_witness :
    (1 : Int) ≤ 1
    ∧ (scanChunks ["sky"] 1 ["xx", "the sky is blue", "sky again"] []).head?
        = some (cleanChunk "the sky is blue") :=
  ⟨by decide,
   (C5_first_match_policy ["sky"] ["xx", "the sky is blue", "sky again"] 1 (by decide)).2.2
     ["xx"] "the sky is blue" ["sky again"] rfl (by decide) (by decide)⟩

/-- C4: whenever the primary answering mechanism fails, `chat_with_article`
returns exactly the fallback responder's answer for the question and leaves
the whole session state — in particular the conversation ledger — unchanged:
no user turn and no assistant turn is recorded for that exchange. -/
theorem C4_fallback_leaves_ledger_unchanged (st : ChatbotState)
    (primary : String → Option String) (question : String)
    (hfail : ∀ p, primary p = Option.none) :
    chat_with_article st primary question = (handle_basic_response st question, st) := by
  simp only [chat_with_article, hfail]

theorem C4_fallback_leaves_ledger_unchanged_witness :
    (∀ p : String, (fun _ : String => (Option.none : Option String)) p = Option.none)
    ∧ chat_with_article ⟨[], ["x"], [("system", "s")]⟩ (fun _ => Option.none) "hello"
        = (handle_basic_response ⟨[], ["x"], [("system", "s")]⟩ "hello",
           ⟨[], ["x"], [("system", "s")]⟩) :=
  ⟨fun _ => rfl,
   C4_fallback_leaves_ledger_unchanged ⟨[], ["x"], [("system", "s")]⟩ _ "hello" (fun _ => rfl)⟩

/-- C9 counterexample: the claim's "returns `Author: N/A` exactly when the key
`author` is absent" is false — a mapping that stores the string `N/A` under
the key `author` has the key present, yet the handler returns `Author: N/A`. -/
theorem C9_counterexample :
    handle_who_question [("author", PyVal.str "N/A")] = "Author: N/A"
    ∧ pyLookup [("author", PyVal.str "N/A")] "author" = some (PyVal.str "N/A") := by
  constructor <;> rfl

/-- C9 (amended): the who-handler decides by key presence, not value: whenever
the key `author` is present it returns `Author: <stored value>` (so `None`
yields `Author: None`), and whenever the key is absent it returns
`Author: N/A` (the same string can also arise with the key present, when the
stored value is itself the string `N/A`). -/
theorem C9_who_key_presence :
    (∀ (ad : ArticleData) (v : PyVal), pyLookup ad "author" = some v →
        handle_who_question ad = "Author: " ++ pyStr v)
    ∧ (∀ ad : ArticleData, pyLookup ad "author" = Option.none →
        handle_who_question ad = "Author: N/A")
    ∧ handle_who_question [("author", PyVal.none)] = "Author: None" := by
  refine ⟨?_, ?_, rfl⟩
  · intro ad v h
    unfold handle_who_question
    rw [h]
  · intro ad h
    unfold handle_who_question
    rw [h]

theorem C9_who_key_presence_witness :
    handle_who_question [] = "Author: N/A" :=
  C9_who_key_presence.2.1 [] rfl

/-- C2 counterexample: the claim pairs the two failure strings the wrong way
round. On a stored date that fails to parse the code returns
`Error retrieving publication date` (the claim says `Publication date not
available`), and on an absent date it returns `Publication date not
available` (the claim says `Error retrieving publication date`). -/
theorem C2_counterexample :
    handle_when_question [("publication_date", PyVal.str "not-a-date")]
        = "Error retrieving publication date"
    ∧ handle_when_question ([] : ArticleData) = "Publication date not available"
    ∧ "Error retrieving publication date" ≠ "Publication date not available" := by
  refine ⟨by decide, by decide, by decide⟩

/-- C2 (amended): if the stored publication date is present, nonempty and
parses, the when-handler returns `Published on <Month> <Day>, <Year>`; if the
stored date is absent or empty it returns `Publication date not available`;
and if a present nonempty date fails to parse it returns
`Error retrieving publication date`. -/
theorem C2_when_question_strings :
    (∀ ad : ArticleData,
        pyTruthy (pyGet ad "publication_date" (PyVal.str "")) = false →
        handle_when_question ad = "Publication date not available")
    ∧ (∀ (ad : ArticleData) (s : String) (d : PyDate),
        pyGet ad "publication_date" (PyVal.str "") = PyVal.str s →
        strptimeYmd s = some d → s ≠ "" →
        handle_when_question ad = "Published on " ++ strftimeBdY d)
    ∧ (∀ (ad : ArticleData) (s : String),
        pyGet ad "publication_date" (PyVal.str "") = PyVal.str s →
        strptimeYmd s = Option.none → s ≠ "" →
        handle_when_question ad = "Error retrieving publication date") := by
  refine ⟨?_, ?_, ?_⟩
  · intro ad h
    unfold handle_when_question
    simp [h]
  · intro ad s d hget hparse hne
    unfold handle_when_question
    simp [hget, pyTruthy, hne, hparse]
  · intro ad s hget hparse hne
    unfold handle_when_question
    simp [hget, pyTruthy, hne, hparse]

theorem C2_when_question_strings_witness :
    handle_when_question [("publication_date", PyVal.str "2021-03-05")]
      = "Published on " ++ strftimeBdY ⟨2021, 3, 5⟩ :=
  C2_when_question_strings.2.1 [("publication_date", PyVal.str "2021-03-05")]
    "2021-03-05" ⟨2021, 3, 5⟩ rfl (by decide) (by decide)

/-- C1 counterexample: the what-handler's answer is *not* independent of the
conversation ledger — the same what-question over the same fragments yields
different answers for two different ledgers, because `get_relevant_context`
extends the term set with tokens of the last three ledger messages. -/
theorem C1_counterexample :
    strIn "what" (lowerStr "what color") = true
    ∧ handle_what_question ⟨[], ["zebra facts here"], []⟩ "what color"
        ≠ handle_what_question ⟨[], ["zebra facts here"], [("user", "zebra")]⟩ "what color" := by
  constructor
  · decide
  · decide

/-- C1 (amended): for every question containing `what` or `tell me about`, the
fallback answer is computed by the relevance selector from the question's
terms extended with the tokens of the last three ledger messages: the selected
context is a pure function of the question, the fragment sequence, and the
last three ledger turns (states agreeing on those yield the same answer). -/
theorem C1_what_context_function_of_recent (st st' : ChatbotState) (q : String)
    (_hq : (strIn "what" (lowerStr q) || strIn "tell me about" (lowerStr q)) = true)
    (hch : st.chunks = st'.chunks)
    (hh : pyLastN 3 st.conversation_history = pyLastN 3 st'.conversation_history) :
    handle_what_question st q = handle_what_question st' q := by
  unfold handle_what_question get_relevant_context queryTerms
  rw [hch, hh]

theorem C1_what_context_function_of_recent_witness :
    (strIn "what" (lowerStr "what") || strIn "tell me about" (lowerStr "what")) = true
    ∧ handle_what_question
        ⟨[], ["x"], [("user", "a"), ("user", "b"), ("user", "c"), ("user", "d")]⟩ "what"
      = handle_what_question
        ⟨[], ["x"], [("user", "z"), ("user", "b"), ("user", "c"), ("user", "d")]⟩ "what" :=
  ⟨by decide, C1_what_context_function_of_recent _ _ "what" (by decide) rfl rfl⟩

/-- C8 counterexample: a question containing both `when` and `who` is *not*
always answered by the when-handler — if it also contains `what`, the earlier
what-pattern wins, as for `what when who`. -/
theorem C8_counterexample :
    strIn "when" (lowerStr "what when who") = true
    ∧ strIn "who" (lowerStr "what when who") = true
    ∧ handle_basic_response ⟨[], [], []⟩ "what when who"
        = some (handle_what_question ⟨[], [], []⟩ "what when who")
    ∧ handle_basic_response ⟨[], [], []⟩ "what when who"
        ≠ some (handle_when_question ([] : ArticleData)) := by
  refine ⟨by decide, by decide, by decide, by decide⟩

/-- C8 (amended): dispatch is by fixed pattern order (what/tell-me-about, then
when/date/time, then who/author, then summary/overview/about, then general)
and the first matching category wins: a question containing both `what` and
`who` resolves to the what-handler, and a question containing both `when` and
`who` — and neither `what` nor `tell me about` — resolves to the when-handler. -/
theorem C8_dispatch_precedence (st : ChatbotState) (q : String) :
    (strIn "what" (lowerStr q) = true → strIn "who" (lowerStr q) = true →
        handle_basic_response st q = some (handle_what_question st q))
    ∧ (strIn "when" (lowerStr q) = true → strIn "who" (lowerStr q) = true →
        strIn "what" (lowerStr q) = false → strIn "tell me about" (lowerStr q) = false →
        handle_basic_response st q = some (handle_when_question st.article_data)) := by
  constructor
  · intro h1 _
    unfold handle_basic_response
    simp [h1]
  · intro h1 _ h3 h4
    unfold handle_basic_response
    simp [h1, h3, h4]

theorem C8_dispatch_precedence_witness :
    handle_basic_response ⟨[], [], []⟩ "what who"
        = some (handle_what_question ⟨[], [], []⟩ "what who")
    ∧ handle_basic_response ⟨[], [], []⟩ "when who"
        = some (handle_when_question ([] : ArticleData)) :=
  ⟨(C8_dispatch_precedence ⟨[], [], []⟩ "what who").1 (by decide) (by decide),
   (C8_dispatch_precedence ⟨[], [], []⟩ "when who").2 (by decide) (by decide)
     (by decide) (by decide)⟩

/-- C10: outside the positive-chunk-size precondition the segmenter is not
total: for `chunk_size = 0` and non-empty text `chunk_text` fails (the index
range's step is zero), and for every negative `chunk_size` it returns the
empty sequence even for non-empty text, so the concatenation invariant fails
there. -/
theorem C10_chunk_text_outside_precondition (s : String) (h : s ≠ "") :
    chunk_text s 0 = Option.none
    ∧ ∀ c : Int, c < 0 → chunk_text s c = some [] ∧ concatAll [] ≠ s := by
  constructor
  · unfold chunk_text pyRange
    simp
  · intro c hc
    have h0 : ¬ (c = 0) := by omega
    have h1 : ¬ (0 < c) := by omega
    have h2 : ¬ ((s.length : Int) < 0) := by
      simp [Int.not_lt]
    constructor
    · unfold chunk_text pyRange pyRangeLen
      simp [h0, h1, hc, h2]
    · simpa [concatAll] using (Ne.symm h)

theorem C10_chunk_text_outside_precondition_witness :
    "ab" ≠ ""
    ∧ (chunk_text "ab" 0 = Option.none
       ∧ ∀ c : Int, c < 0 → chunk_text "ab" c = some [] ∧ concatAll [] ≠ "ab") :=
  ⟨by decide, C10_chunk_text_outside_precondition "ab" (by decide)⟩

/-- C6: if no fragment's lower-cased text contains any term of the term set
built from the query and the recent turns, the relevance selector returns
exactly the literal sentence `No specific information found in the article.`. -/
theorem C6_no_match_literal (query : String) (history : List (String × String))
    (chunks : List String) (top_k : Int)
    (h : ∀ ch ∈ chunks, chunkMatches (queryTerms query history) ch = false) :
    get_relevant_context query history chunks top_k
      = "No specific information found in the article." := by
  unfold get_relevant_context
  simp [scanChunks_no_match _ top_k chunks [] h]

theorem C6_no_match_literal_witness :
    (∀ ch ∈ ["zebra facts"], chunkMatches (queryTerms "qqq" []) ch = false)
    ∧ get_relevant_context "qqq" [] ["zebra facts"] 3
        = "No specific information found in the article." :=
  ⟨by decide, C6_no_match_literal "qqq" [] ["zebra facts"] 3 (by decide)⟩

/-- C3: for every string and every positive chunk size, the segmenter
succeeds and concatenating its fragments in order reproduces the string
exactly; every fragment except possibly the last has length exactly the chunk
size, the last has length in `(0, chunkSize]`, and the empty string yields the
empty sequence. -/
theorem C3_segmenter_roundtrip (s : String) (c : Int) (hc : 0 < c) :
    ∃ L, chunk_text s c = some L
      ∧ concatAll L = s
      ∧ (∀ fr ∈ L.dropLast, fr.length = c.toNat)
      ∧ (∀ h : L ≠ [], 0 < (L.getLast h).length ∧ (L.getLast h).length ≤ c.toNat)
      ∧ (s = "" → L = []) := by
  obtain ⟨m, rfl⟩ : ∃ m : Nat, c = ((m + 1 : Nat) : Int) := ⟨c.toNat - 1, by omega⟩
  refine ⟨(chunksL m s.data).map (fun l => (⟨l⟩ : String)),
    chunk_text_pos_eq m s, ?_, ?_, ?_, ?_⟩
  · rw [concatAll_map_mk, chunksL_flatten]
  · intro fr hfr
    rw [dropLast_map] at hfr
    obtain ⟨l, hl, rfl⟩ := List.mem_map.1 hfr
    have hlen := chunksL_dropLast m s.data l hl
    show l.length = ((m + 1 : Nat) : Int).toNat
    omega
  · intro h
    have hmem := List.getLast_mem h
    obtain ⟨l, hl, heq⟩ := List.mem_map.1 hmem
    have hb := chunksL_mem_len m s.data l hl
    rw [← heq]
    show 0 < l.length ∧ l.length ≤ ((m + 1 : Nat) : Int).toNat
    omega
  · intro hs
    subst hs
    rw [(chunksL_eq_nil_iff m _).2 rfl]
    rfl

theorem C3_segmenter_roundtrip_witness :
    (0 : Int) < 2
    ∧ ∃ L, chunk_text "abcde" 2 = some L
        ∧ concatAll L = "abcde"
        ∧ (∀ fr ∈ L.dropLast, fr.length = (2 : Int).toNat)
        ∧ (∀ h : L ≠ [], 0 < (L.getLast h).length ∧ (L.getLast h).length ≤ (2 : Int).toNat)
        ∧ ("abcde" = "" → L = []) :=
  ⟨by decide, C3_segmenter_roundtrip "abcde" 2 (by decide)⟩

end Chatbot
